import Mathlib

/-!
Verification of the sdl3-intra-compat test-orchestration script.

This file gives a shallow embedding of the script `sdl3-intra-compat.py`:
pure fragments (the result enum, the success-accumulation rule, version
comparison, test discovery parsing, the report lookup) become Lean
functions, and the process-supervision loop becomes a step-counting
recursion over an abstract child process.  Time is measured in the unit of
Python's `time.time()` (seconds); the 0.01 s sleep granularity of the poll
loop is abstracted to unit steps, which only coarsens the times at which
the child is observed and leaves the deadline comparison
`time.time() > start + timeout` intact.
-/

set_option autoImplicit false

/-- The `TestResult` string enum of the script (line 28-33). -/
inductive TestResult where
  | SUCCESS
  | FAILED
  | TIMEOUT
  | NA
  | SKIP
  deriving DecidableEq, BEq, Repr

/-- The per-result success accumulation of lines 194 and 212:
`success = success and test_result == TestResult.SUCCESS and
test_result not in (TestResult.NA, TestResult.SKIP)`. -/
def accumStep (success : Bool) (r : TestResult) : Bool :=
  success && (r == TestResult.SUCCESS)
    && !(r == TestResult.NA || r == TestResult.SKIP)

/-- Line 242: `return 0 if success else 1`. -/
def exit_code (success : Bool) : Nat :=
  if success then 0 else 1

/-- `MAX_TEST_TIME = 60000` (line 18).  It is passed as the `timeout`
argument of `run_process_with_timeout`, where it is added to
`time.time()`, a wall clock in seconds. -/
def MAX_TEST_TIME : Nat := 60000

/-- An abstract child process as spawned by `subprocess.Popen` (line 38):
it is characterised by the wall-clock time at which it exits (`none` if it
never exits) and its exit status.  The command and environment passed to
`Popen` only determine which `ChildProc` one gets, so theorems quantify
over `ChildProc`. -/
structure ChildProc where
  exitAt : Option Nat
  returncode : Int
  deriving DecidableEq, Repr

/-- `child.poll()` observed at wall-clock time `t`: `none` while the child
is still running, the exit status once it has exited. -/
def poll (c : ChildProc) (t : Nat) : Option Int :=
  match c.exitAt with
  | none => none
  | some te => if te ≤ t then some c.returncode else none

/-- The poll loop of lines 40-43, with `start = 0` so that `deadline`
is `start + timeout`.  Returns the time at which the loop stops: either
the child has been observed exited, or the wall clock passed the deadline
(`time.time() > start + timeout`, i.e. `deadline < now`).  `fuel` bounds
the recursion; `deadline + 2` steps always suffice from time `0`. -/
def pollLoop (c : ChildProc) (deadline : Nat) : Nat → Nat → Nat
  | now, 0 => now
  | now, fuel + 1 =>
    match poll c now with
    | some _ => now
    | none => if deadline < now then now else pollLoop c deadline (now + 1) fuel

/-- Outcome of `run_process_with_timeout`: the classified `TestResult`
and whether the child is still alive afterwards. -/
structure RunOutcome where
  result : TestResult
  aliveAfter : Bool
  deriving DecidableEq, Repr

/-- Lines 36-50: run the poll loop, then classify.  If the final poll
still sees the child running, `child.kill()` is called (so the child is
not alive afterwards) and the result is TIMEOUT; an exit status of zero
is SUCCESS and any other status is FAILED (the child having exited is not
alive either way). -/
def run_process_with_timeout (c : ChildProc) (timeout : Nat) : RunOutcome :=
  match poll c (pollLoop c timeout 0 (timeout + 2)) with
  | none => ⟨TestResult.TIMEOUT, false⟩
  | some code => ⟨if code = 0 then TestResult.SUCCESS else TestResult.FAILED, false⟩

/-- Byte-wise prefix test on character lists. -/
def listStarts : List Char → List Char → Bool
  | [], _ => true
  | _ :: _, [] => false
  | a :: as, b :: bs => a == b && listStarts as bs

/-- Python's substring containment `needle in haystack` on character
lists: some suffix of the haystack starts with the needle (the empty
needle is contained in everything). -/
def pyInL : List Char → List Char → Bool
  | needle, [] => needle.isEmpty
  | needle, h :: t => listStarts needle (h :: t) || pyInL needle t

/-- Python's `needle in haystack` for strings. -/
def pyIn (needle haystack : String) : Bool :=
  pyInL needle.toList haystack.toList

/-- Truthiness of an optional string argument, as Python evaluates
`if args.filter_tests:` — absent (`None`) and the empty string are
falsy. -/
def truthyFilter : Option String → Bool
  | none => false
  | some s => !s.toList.isEmpty

/-- The string carried by a filter argument (`""` when absent; only ever
used under `truthyFilter`, mirroring Python's short-circuit `and`). -/
def filterStr : Option String → String
  | none => ""
  | some s => s

/-- Lines 187-193, for one unit test: if the test-name filter is truthy
and not contained in the test name, the test is recorded SKIP and the
Process Runner is not invoked; otherwise the runner's result (`runResult`)
is recorded.  The boolean reports whether `run_process_with_timeout` was
invoked (i.e. whether a child process was started). -/
def unit_test_step (filt : Option String) (name : String) (runResult : TestResult) :
    TestResult × Bool :=
  if truthyFilter filt && !(pyIn (filterStr filt) name) then (TestResult.SKIP, false)
  else (runResult, true)

/-- Python's lexicographic comparison of `(major, minor, micro)` tuples,
as used on line 176: `TAG_VERSION[other_tag] <= TAG_VERSION[args.dut_tag]`. -/
def vle (a b : Nat × Nat × Nat) : Bool :=
  Nat.blt a.1 b.1 ||
    (Nat.beq a.1 b.1 &&
      (Nat.blt a.2.1 b.2.1 || (Nat.beq a.2.1 b.2.1 && Nat.ble a.2.2 b.2.2)))

/-- Per-tag data available when the comparison engine runs: the parsed
`(major, minor, micro)` version and the discovered unit tests
(`TAG_TESTS[tag]`, a name-to-command mapping kept in insertion order). -/
structure TagData where
  version : Nat × Nat × Nat
  tests : List (String × List String)
  deriving Repr

/-- Accumulator of the per-tag unit-test loop (lines 185-194):
`other_tag_test_results`, the running `success` flag, and the names of
tests actually handed to the Process Runner. -/
structure TagOutcome where
  results : List (String × TestResult)
  success : Bool
  executed : List String
  deriving Repr

/-- The unit-test loop of lines 185-194.  `runOf` abstracts
`run_process_with_timeout` on a concrete command (the external child's
behaviour).  Every test gets exactly one recorded result; the success flag
is threaded through `accumStep`. -/
def unit_loop (filt : Option String) (runOf : List String → TestResult) :
    List (String × List String) → TagOutcome → TagOutcome
  | [], acc => acc
  | (name, cmd) :: rest, acc =>
    let s := unit_test_step filt name (runOf cmd)
    unit_loop filt runOf rest
      ⟨acc.results ++ [(name, s.1)], accumStep acc.success s.1,
        acc.executed ++ (if s.2 then [name] else [])⟩

/-- Engine state threaded over the non-DUT tags (lines 174-194):
the overall `success` flag, `TEST_RESULTS` (an insertion-ordered mapping
from tag to its per-test results), and the log of `(tag, test)` pairs for
which a child process was started. -/
structure EngineState where
  success : Bool
  unitResults : List (String × List (String × TestResult))
  executed : List (String × String)
  deriving Repr

/-- First-match association-list lookup (Python dict access by key,
`none` modelling a raised `KeyError`). -/
def lookupA {β : Type} (xs : List (String × β)) (k : String) : Option β :=
  match xs with
  | [] => none
  | (k', v) :: t => if k' = k then some v else lookupA t k

/-- Lines 175-194 for one non-DUT tag: if the tag's version is not `<=`
the DUT version, the success flag is set false and the tag is skipped
(`continue` on line 179) — in particular `TEST_RESULTS[other_tag]` is
never created.  Otherwise the tag's unit tests are run and recorded. -/
def process_tag (dutV : Nat × Nat × Nat) (filt : Option String)
    (runOf : List String → TestResult) (st : EngineState) (tag : String × TagData) :
    EngineState :=
  if !(vle tag.2.version dutV) then { st with success := false }
  else
    let o := unit_loop filt runOf tag.2.tests ⟨[], st.success, []⟩
    { success := o.success,
      unitResults := st.unitResults ++ [(tag.1, o.results)],
      executed := st.executed ++ o.executed.map (fun n => (tag.1, n)) }

/-- The comparison engine over all non-DUT tags in caller-supplied order,
starting from `success = True` (line 174). -/
def run_engine (dutV : Nat × Nat × Nat) (filt : Option String)
    (runOf : List String → TestResult) (tags : List (String × TagData)) : EngineState :=
  tags.foldl (process_tag dutV filt runOf) ⟨true, [], []⟩

/-- One cell of the final unit-test report (line 238):
`TEST_RESULTS[other_tag].get(test_name, TestResult.NA)`.  The outer
lookup is a plain dict index, so a missing tag raises `KeyError`,
modelled by `none`; a missing test within an existing tag renders as
NOT-APPLICABLE via `.get`. -/
def report_cell (st : EngineState) (tag name : String) : Option TestResult :=
  (lookupA st.unitResults tag).map (fun m => (lookupA m name).getD TestResult.NA)

/-- Lines 204-210, for one automation case: the per-case result recorded
in `other_tag_testautomation_results` — SKIP when the automation filter is
truthy and not contained in the case name, otherwise the Process Runner's
result for `testautomation --filter <case>` (abstracted by `runOf`). -/
def case_result (filtA : Option String) (runOf : String → TestResult) (c : String) :
    TestResult :=
  if truthyFilter filtA && !(pyIn (filterStr filtA) c) then TestResult.SKIP
  else runOf c

/-- The value of the Python variable `test_result` after the automation
loop of lines 202-211 has run over `cases`, starting from its previous
value `prev` (the variable is reused from the unit-test loop). -/
def automation_last (filtA : Option String) (runOf : String → TestResult) :
    List String → TestResult → TestResult
  | [], prev => prev
  | c :: rest, _ => automation_last filtA runOf rest (case_result filtA runOf c)

/-- Line 212: the one success-flag update made for a tag's automation
run — it sits outside the `for` loop, so it sees only the final value of
`test_result`. -/
def automation_update (success : Bool) (filtA : Option String)
    (runOf : String → TestResult) (cases : List String) (prev : TestResult) : Bool :=
  accumStep success (automation_last filtA runOf cases prev)

/-- Lines 157-159: when the automation filter is truthy, the discovered
case list is filtered down, at discovery time, to the cases containing
the filter substring; this happens before the list is recorded in
`TAG_AUTOMATION_CASES` and before it is merged into
`all_automation_cases`. -/
def discovered_cases (filtA : Option String) (raw : List String) : List String :=
  if truthyFilter filtA then raw.filter (fun c => pyIn (filterStr filtA) c) else raw

/-- The row set of the automation report (line 160 and 224):
`all_automation_cases` is the union over all tags of the already-filtered
case lists, here as a concatenation (only membership matters). -/
def automation_rows (filtA : Option String) (rawLists : List (List String)) :
    List String :=
  (rawLists.map (discovered_cases filtA)).flatten

/-- Pointwise update of an environment mapping (one Python dict item
assignment on a copy of `os.environ`). -/
def upd (e : String → Option String) (k : String) (v : String) :
    String → Option String :=
  fun x => if x = k then some v else e x

/-- Lines 163-165: copy the parent environment (`dict(os.environ)` — the
parent's own environment is read, never written) and set both
dynamic-loader search paths to the DUT prefix's `lib` directory. -/
def child_env_base (parent : String → Option String) (pref : String) :
    String → Option String :=
  upd (upd parent "DYLD_LIBRARY_PATH" (pref ++ "/lib")) "LD_LIBRARY_PATH" (pref ++ "/lib")

/-- Line 166: `PATH` is re-set to the DUT prefix's `bin` directory,
`os.path.pathsep` (`:` on POSIX) and the previous `PATH` value.  The code
indexes `child_environ["PATH"]`, which raises `KeyError` when the parent
has no `PATH`; that precondition is recorded by `child_env_ok`, and the
`getD ""` default is only ever exercised when it holds. -/
def child_env (parent : String → Option String) (pref : String) :
    String → Option String :=
  upd (child_env_base parent pref) "PATH"
    (pref ++ "/bin" ++ ":" ++ ((child_env_base parent pref) "PATH").getD "")

/-- Line 166 can only be reached without a `KeyError` when the parent
environment defines `PATH`. -/
def child_env_ok (parent : String → Option String) : Bool :=
  (parent "PATH").isSome

/-- The whitespace set of Python's `shlex` lexer: space, tab, carriage
return, newline. -/
def shlexWS (c : Char) : Bool :=
  c = ' ' || c = '\t' || c = '\r' || c = '\n'

/-- Lexer state of `shlex` in POSIX mode with `whitespace_split=True`:
outside quotes, after a backslash outside quotes, inside single quotes,
inside double quotes, and after a backslash inside double quotes. -/
inductive ShState where
  | norm
  | esc
  | sq
  | dq
  | dqesc
  deriving DecidableEq, Repr

/-- Close the token in progress (tokens are accumulated reversed). -/
def flushTok (cur : Option (List Char)) (acc : List (List Char)) : List (List Char) :=
  match cur with
  | none => acc
  | some t => acc ++ [t.reverse]

/-- The state machine of `shlex.split(s)` (POSIX mode, whitespace-only
splitting, no comment characters): whitespace separates tokens; single
quotes are literal; inside double quotes a backslash escapes only `"` and
`\` and is otherwise kept; outside quotes a backslash makes the next
character literal.  `none` models the `ValueError` raised on an unclosed
quote or a trailing escape character. -/
def shlexRun : List Char → ShState → Option (List Char) → List (List Char) →
    Option (List (List Char))
  | [], ShState.norm, cur, acc => some (flushTok cur acc)
  | [], _, _, _ => none
  | c :: rest, ShState.norm, cur, acc =>
    if shlexWS c then shlexRun rest ShState.norm none (flushTok cur acc)
    else if c = '\'' then shlexRun rest ShState.sq (some (cur.getD [])) acc
    else if c = '"' then shlexRun rest ShState.dq (some (cur.getD [])) acc
    else if c = '\\' then shlexRun rest ShState.esc (some (cur.getD [])) acc
    else shlexRun rest ShState.norm (some (c :: cur.getD [])) acc
  | c :: rest, ShState.esc, cur, acc =>
    shlexRun rest ShState.norm (some (c :: cur.getD [])) acc
  | c :: rest, ShState.sq, cur, acc =>
    if c = '\'' then shlexRun rest ShState.norm cur acc
    else shlexRun rest ShState.sq (some (c :: cur.getD [])) acc
  | c :: rest, ShState.dq, cur, acc =>
    if c = '"' then shlexRun rest ShState.norm cur acc
    else if c = '\\' then shlexRun rest ShState.dqesc cur acc
    else shlexRun rest ShState.dq (some (c :: cur.getD [])) acc
  | c :: rest, ShState.dqesc, cur, acc =>
    if c = '"' || c = '\\' then shlexRun rest ShState.dq (some (c :: cur.getD [])) acc
    else shlexRun rest ShState.dq (some (c :: '\\' :: cur.getD [])) acc

/-- `shlex.split` on a string (line 73). -/
def shlexSplit (s : String) : Option (List String) :=
  (shlexRun s.toList ShState.norm none []).map (List.map (fun t => String.mk t))

/-- Split a character list into lines at newline characters. -/
def splitLinesL : List Char → List (List Char)
  | [] => [[]]
  | '\n' :: rest => [] :: splitLinesL rest
  | c :: rest =>
    match splitLinesL rest with
    | [] => [[c]]
    | l :: ls => (c :: l) :: ls

/-- The whitespace class of the regex `\s` and of Python's `str.strip`. -/
def isWS (c : Char) : Bool :=
  c = ' ' || c = '\t' || c = '\n' || c = '\r' || c = '\x0b' || c = '\x0c'

/-- Strip leading and trailing whitespace from a character list. -/
def trimL (cs : List Char) : List Char :=
  ((cs.dropWhile isWS).reverse.dropWhile isWS).reverse

/-- ASCII lowercase a character list (configparser's default
`optionxform` lowercases option keys). -/
def toLowerL (cs : List Char) : List Char :=
  cs.map Char.toLower

/-- Split a line at the first `=` or `:` delimiter (configparser's
option/value split, non-greedy option part). -/
def splitDelim : List Char → Option (List Char × List Char)
  | [] => none
  | c :: rest =>
    if c = '=' || c = ':' then some ([], rest)
    else (splitDelim rest).map (fun p => (c :: p.1, p.2))

/-- Walk the lines of a descriptor tracking the current section, looking
up the option `keyLower` (already lowercased) in section `sec`.  Models
`configparser` on well-formed descriptor files (section headers and
`key=value` lines, no interpolation, no continuation lines): keys are
lowercased, keys and values have surrounding whitespace stripped. -/
def iniGetAux (sec keyLower : List Char) :
    List (List Char) → Option (List Char) → Option (List Char)
  | [], _ => none
  | line :: rest, cur =>
    match trimL line with
    | [] => iniGetAux sec keyLower rest cur
    | '[' :: more =>
      match more.reverse with
      | ']' :: revn =>
        if revn.isEmpty then iniGetAux sec keyLower rest cur
        else iniGetAux sec keyLower rest (some revn.reverse)
      | _ => iniGetAux sec keyLower rest cur
    | t =>
      match splitDelim t with
      | none => iniGetAux sec keyLower rest cur
      | some (k, v) =>
        if cur = some sec ∧ toLowerL (trimL k) = keyLower then some (trimL v)
        else iniGetAux sec keyLower rest cur

/-- `config["Test"]["Exec"]` after `config.read(test_path)` (lines 71-73):
the Exec command line of a descriptor file's Test section (`none` models
the `KeyError` on a descriptor without it). -/
def descriptor_exec (content : String) : Option String :=
  (iniGetAux "Test".toList "exec".toList (splitLinesL content.toList) none).map
    (fun cs => String.mk cs)

/-- `pathlib.Path.stem`: the file name without its final suffix.  A name
with no dot, a name whose only dot is its first character, or a name
ending in a dot has no suffix and is its own stem. -/
def stem (s : String) : String :=
  match s.toList.reverse with
  | [] => s
  | c :: _ =>
    if c = '.' then s
    else
      match s.toList.reverse.dropWhile (fun x => x ≠ '.') with
      | [] => s
      | [_] => s
      | _ :: pre => String.mk pre.reverse

/-- `get_unit_tests` (lines 68-74), with the directory iteration
abstracted to an explicit list of `(file name, file contents)` pairs:
each descriptor contributes one test, named by the file's stem, whose
invocation is the shlex-split Exec value.  `none` models the exceptions
the source lets propagate (missing Test/Exec key, unparsable Exec). -/
def get_unit_tests (files : List (String × String)) :
    Option (List (String × List String)) :=
  match files with
  | [] => some []
  | (fname, content) :: rest =>
    (descriptor_exec content).bind fun ex =>
      (shlexSplit ex).bind fun cmd =>
        (get_unit_tests rest).map fun r => (stem fname, cmd) :: r

/-- The character class `[a-zA-Z0-9_]` of the automation-case regex. -/
def isIdentChar (c : Char) : Bool :=
  ('a' ≤ c && c ≤ 'z') || ('A' ≤ c && c ≤ 'Z') || ('0' ≤ c && c ≤ '9') || c = '_'

/-- The character class `[a-zA-Z0-9_.-]` of the captured case name. -/
def isCaseChar (c : Char) : Bool :=
  isIdentChar c || c = '.' || c = '-'

/-- Consume the maximal run of `\s` characters (`\s*`). -/
def dropWS : List Char → List Char
  | [] => []
  | c :: rest => if isWS c then dropWS rest else c :: rest

/-- Match a literal character sequence, returning the remainder. -/
def matchLit : List Char → List Char → Option (List Char)
  | [], s => some s
  | _ :: _, [] => none
  | c :: cs, d :: ds => if c = d then matchLit cs ds else none

/-- Maximal run of characters in class `p`. -/
def takeClass (p : Char → Bool) : List Char → List Char × List Char
  | [] => ([], [])
  | c :: rest =>
    if p c then
      let q := takeClass p rest
      (c :: q.1, q.2)
    else ([], c :: rest)

/-- One-or-more characters of class `p` (`[...]+`), returning the matched
run and the remainder. -/
def matchPlus (p : Char → Bool) (s : List Char) : Option (List Char × List Char) :=
  match s with
  | [] => none
  | c :: rest =>
    if p c then
      let q := takeClass p rest
      some (c :: q.1, q.2)
    else none

/-- Match the automation-case regex of line 81 at the head of `s`:
`static\s*(?:const)?\s*SDLTest_TestCaseReference\s*[a-zA-Z0-9_]+\s*=\s*\x7b\s*[a-zA-Z0-9_]+\s*,\s*"([a-zA-Z0-9_.-]+)"\s*,`
returning the captured case name and the remainder after the match.  The
character classes of adjacent pieces are disjoint, so this maximal-munch
matcher (with the optional `const` tried first, as the regex engine does)
matches exactly when the backtracking regex does. -/
def matchCaseRef (s : List Char) : Option (List Char × List Char) :=
  (matchLit "static".toList s).bind fun s1 =>
    let s2 := dropWS s1
    let s3 := match matchLit "const".toList s2 with
      | some r => r
      | none => s2
    let s4 := dropWS s3
    (matchLit "SDLTest_TestCaseReference".toList s4).bind fun s5 =>
      (matchPlus isIdentChar (dropWS s5)).bind fun q1 =>
        (matchLit "=".toList (dropWS q1.2)).bind fun s6 =>
          (matchLit ['\x7b'] (dropWS s6)).bind fun s7 =>
            (matchPlus isIdentChar (dropWS s7)).bind fun q2 =>
              (matchLit ",".toList (dropWS q2.2)).bind fun s8 =>
                (matchLit "\"".toList (dropWS s8)).bind fun s9 =>
                  (matchPlus isCaseChar s9).bind fun cap =>
                    (matchLit "\"".toList cap.2).bind fun s10 =>
                      (matchLit ",".toList (dropWS s10)).map fun s11 =>
                        (cap.1, s11)

/-- `re.finditer` over the source text: scan left to right, trying the
pattern at each position; on a match, emit the captured group and resume
after the match (non-overlapping, leftmost-first).  `fuel` bounds the
scan; the text's length always suffices since a match consumes at least
`static`. -/
def scanCases (s : List Char) (fuel : Nat) : List (List Char) :=
  match fuel, s with
  | 0, _ => []
  | _ + 1, [] => []
  | fuel + 1, c :: rest =>
    match matchCaseRef (c :: rest) with
    | some (cap, after) => cap :: scanCases after fuel
    | none => scanCases rest fuel

/-- `get_automation_cases` (lines 77-83) on the text of one
`testautomation*.c` source file (the glob over files is abstracted; the
per-file extraction is the regex scan). -/
def get_automation_cases (text : String) : List String :=
  (scanCases text.toList text.toList.length).map (fun cs => String.mk cs)

theorem pollLoop_exit (c : ChildProc) (deadline t : Nat) (hc : c.exitAt = some t)
    (ht : t ≤ deadline) :
    ∀ (fuel now : Nat), now ≤ t → t - now < fuel → pollLoop c deadline now fuel = t := by
  intro fuel
  induction fuel with
  | zero => intro now h1 h2; omega
  | succ n ih =>
    intro now h1 h2
    rcases Nat.lt_or_ge now t with hlt | hge
    · have hp : poll c now = none := by
        unfold poll; rw [hc]; simp; omega
      have hnd : ¬ deadline < now := by omega
      simp only [pollLoop, hp, if_neg hnd]
      exact ih (now + 1) (by omega) (by omega)
    · have heq : now = t := by omega
      subst heq
      have hp : poll c now = some c.returncode := by
        unfold poll; rw [hc]; simp
      simp only [pollLoop, hp]

theorem pollLoop_timeout (c : ChildProc) (deadline : Nat)
    (h : ∀ s, s ≤ deadline + 1 → poll c s = none) :
    ∀ (fuel now : Nat), now ≤ deadline + 1 → deadline + 1 - now < fuel →
      pollLoop c deadline now fuel = deadline + 1 := by
  intro fuel
  induction fuel with
  | zero => intro now h1 h2; omega
  | succ n ih =>
    intro now h1 h2
    have hp : poll c now = none := h now h1
    rcases Nat.lt_or_ge deadline now with hlt | hge
    · have heq : now = deadline + 1 := by omega
      subst heq
      simp only [pollLoop, hp]
      simp
    · simp only [pollLoop, hp, if_neg (by omega : ¬ deadline < now)]
      exact ih (now + 1) (by omega) (by omega)

theorem pyInL_nil (l : List Char) : pyInL [] l = true := by
  cases l <;> rfl

theorem truthy_of_not_contained (s name : String) (h : pyIn s name = false) :
    truthyFilter (some s) = true := by
  cases hl : s.toList with
  | nil =>
    exfalso
    have htrue : pyIn s name = true := by unfold pyIn; rw [hl]; exact pyInL_nil _
    rw [htrue] at h
    exact Bool.noConfusion h
  | cons a l =>
    have hd : s.data = a :: l := hl
    simp [truthyFilter, hd]

theorem automation_last_append (filtA : Option String) (f : String → TestResult) :
    ∀ (start : List String) (last : String) (prev : TestResult),
      automation_last filtA f (start ++ [last]) prev = case_result filtA f last := by
  intro start
  induction start with
  | nil => intro last prev; rfl
  | cons c rest ih => intro last prev; exact ih last (case_result filtA f c)

theorem case_result_congr (filtA : Option String) (f g : String → TestResult)
    (c : String) (h : g c = f c) :
    case_result filtA g c = case_result filtA f c := by
  unfold case_result; rw [h]

/-- Claim C1 (code bug): the claim says a SKIP or NOT-APPLICABLE result never
flips the accumulated success flag to false; but line 194 computes
`success and r == SUCCESS and r not in (NA, SKIP)`, whose middle conjunct is
already false for SKIP/NA, so any non-SUCCESS result — including SKIP and
NA — flips the flag (the `not in` clause is dead code).  FAILED and TIMEOUT
do flip it, false is absorbing, and the exit code is 1 once false.  The
engine run shows the end-to-end effect: a filter that skips the only test
makes the whole run exit 1 without starting any child process. -/
theorem c1_skip_flips_success :
    accumStep true TestResult.SKIP = false ∧
    accumStep true TestResult.NA = false ∧
    accumStep true TestResult.FAILED = false ∧
    accumStep true TestResult.TIMEOUT = false ∧
    accumStep true TestResult.SUCCESS = true ∧
    accumStep false TestResult.SUCCESS = false ∧
    exit_code false = 1 ∧
    (run_engine (3, 0, 0) (some "x") (fun _ => TestResult.SUCCESS)
        [("tag1", ⟨(3, 0, 0), [("alpha", ["alpha"])]⟩)]).success = false ∧
    (run_engine (3, 0, 0) (some "x") (fun _ => TestResult.SUCCESS)
        [("tag1", ⟨(3, 0, 0), [("alpha", ["alpha"])]⟩)]).unitResults
      = [("tag1", [("alpha", TestResult.SKIP)])] ∧
    (run_engine (3, 0, 0) (some "x") (fun _ => TestResult.SUCCESS)
        [("tag1", ⟨(3, 0, 0), [("alpha", ["alpha"])]⟩)]).executed = [] ∧
    exit_code (run_engine (3, 0, 0) (some "x") (fun _ => TestResult.SUCCESS)
        [("tag1", ⟨(3, 0, 0), [("alpha", ["alpha"])]⟩)]).success = 1 := by
  decide

/-- Claim C2 (code bug): a non-DUT tag whose version is not `<=` the DUT's
flips the success flag, has none of its tests executed, and processing
continues with the remaining tags — all confirmed below — but the claim's
last part fails: because the `continue` on line 179 precedes the creation
of `TEST_RESULTS[other_tag]` on line 182, the final report's
`TEST_RESULTS[other_tag]` lookup raises `KeyError` (modelled by
`report_cell = none`) instead of rendering an all-n/a column for that tag.
Here tag `old` at version 3.2.0 exceeds the DUT's 3.0.0: the flag is
false, only `ok`'s test ran, `ok`'s cell renders, and `old`'s lookup
fails. -/
theorem c2_version_violation_keyerror :
    (run_engine (3, 0, 0) none (fun _ => TestResult.SUCCESS)
        [("old", ⟨(3, 2, 0), [("t", ["tcmd"])]⟩),
         ("ok", ⟨(3, 0, 0), [("u", ["ucmd"])]⟩)]).success = false ∧
    (run_engine (3, 0, 0) none (fun _ => TestResult.SUCCESS)
        [("old", ⟨(3, 2, 0), [("t", ["tcmd"])]⟩),
         ("ok", ⟨(3, 0, 0), [("u", ["ucmd"])]⟩)]).executed = [("ok", "u")] ∧
    report_cell (run_engine (3, 0, 0) none (fun _ => TestResult.SUCCESS)
        [("old", ⟨(3, 2, 0), [("t", ["tcmd"])]⟩),
         ("ok", ⟨(3, 0, 0), [("u", ["ucmd"])]⟩)]) "old" "t" = none ∧
    report_cell (run_engine (3, 0, 0) none (fun _ => TestResult.SUCCESS)
        [("old", ⟨(3, 2, 0), [("t", ["tcmd"])]⟩),
         ("ok", ⟨(3, 0, 0), [("u", ["ucmd"])]⟩)]) "ok" "u" = some TestResult.SUCCESS := by
  decide

/-- Claim C3 (code bug): the claim says tests run under a fixed timeout of
60 seconds, but `MAX_TEST_TIME` is 60000 and is added on line 41 to
`time.time()`, a clock in seconds — so the effective deadline is 60000
seconds.  A child that exits successfully after 120 seconds is classified
SUCCESS under the code's `MAX_TEST_TIME` deadline, whereas under an actual
60-second deadline the same child is killed and classified TIMEOUT. -/
theorem c3_timeout_not_60_seconds :
    MAX_TEST_TIME = 60000 ∧
    run_process_with_timeout ⟨some 120, 0⟩ MAX_TEST_TIME
      = ⟨TestResult.SUCCESS, false⟩ ∧
    run_process_with_timeout ⟨some 120, 0⟩ 60 = ⟨TestResult.TIMEOUT, false⟩ := by
  refine ⟨rfl, ?_, by decide⟩
  have he : pollLoop ⟨some 120, 0⟩ 60000 0 (60000 + 2) = 120 :=
    pollLoop_exit ⟨some 120, 0⟩ 60000 120 rfl (by omega) (60000 + 2) 0 (by omega)
      (by omega)
  unfold run_process_with_timeout MAX_TEST_TIME
  rw [he]
  decide

/-- Claim C4 (confirmed): for any child process and timeout, exiting with
status 0 at a time within the deadline yields SUCCESS, exiting with a
non-zero status within the deadline yields FAILED, and a child still
running when the poll loop passes the deadline is killed — the outcome is
TIMEOUT and the child is not alive afterward. -/
theorem c4_run_classification (c : ChildProc) (timeout t : Nat) :
    (c.exitAt = some t → t ≤ timeout → c.returncode = 0 →
      run_process_with_timeout c timeout = ⟨TestResult.SUCCESS, false⟩) ∧
    (c.exitAt = some t → t ≤ timeout → c.returncode ≠ 0 →
      run_process_with_timeout c timeout = ⟨TestResult.FAILED, false⟩) ∧
    ((∀ s, s ≤ timeout + 1 → poll c s = none) →
      run_process_with_timeout c timeout = ⟨TestResult.TIMEOUT, false⟩) := by
  refine ⟨?_, ?_, ?_⟩
  · intro hc ht hz
    have he : pollLoop c timeout 0 (timeout + 2) = t :=
      pollLoop_exit c timeout t hc ht (timeout + 2) 0 (Nat.zero_le t) (by omega)
    have hp : poll c t = some c.returncode := by unfold poll; rw [hc]; simp
    unfold run_process_with_timeout
    rw [he, hp]
    simp [hz]
  · intro hc ht hz
    have he : pollLoop c timeout 0 (timeout + 2) = t :=
      pollLoop_exit c timeout t hc ht (timeout + 2) 0 (Nat.zero_le t) (by omega)
    have hp : poll c t = some c.returncode := by unfold poll; rw [hc]; simp
    unfold run_process_with_timeout
    rw [he, hp]
    simp [hz]
  · intro h
    have he : pollLoop c timeout 0 (timeout + 2) = timeout + 1 :=
      pollLoop_timeout c timeout h (timeout + 2) 0 (by omega) (by omega)
    unfold run_process_with_timeout
    rw [he, h (timeout + 1) (le_refl _)]

theorem c4_run_classification_witness :
    run_process_with_timeout ⟨some 1, 0⟩ 5 = ⟨TestResult.SUCCESS, false⟩ ∧
    run_process_with_timeout ⟨some 2, 3⟩ 5 = ⟨TestResult.FAILED, false⟩ ∧
    run_process_with_timeout ⟨none, 0⟩ 5 = ⟨TestResult.TIMEOUT, false⟩ := by
  refine ⟨?_, ?_, ?_⟩
  · exact (c4_run_classification ⟨some 1, 0⟩ 5 1).1 rfl (by omega) rfl
  · exact (c4_run_classification ⟨some 2, 3⟩ 5 2).2.1 rfl (by omega) (by decide)
  · exact (c4_run_classification ⟨none, 0⟩ 5 0).2.2 (fun s _ => rfl)

/-- Claim C5 (confirmed): the success-flag update for a tag's automation
run (line 212, outside the per-case loop) is a single `accumStep`
application whose argument is the recorded result of the last case
iterated; in particular, two result oracles agreeing on the last case
yield the same updated flag no matter how the earlier cases (for example
FAILED or TIMEOUT ones) differ. -/
theorem c5_automation_last_only (success : Bool) (filtA : Option String)
    (f g : String → TestResult) (start : List String) (last : String)
    (prev : TestResult) (hg : g last = f last) :
    automation_update success filtA f (start ++ [last]) prev
      = accumStep success (case_result filtA f last) ∧
    automation_update success filtA g (start ++ [last]) prev
      = automation_update success filtA f (start ++ [last]) prev := by
  constructor
  · unfold automation_update
    rw [automation_last_append]
  · unfold automation_update
    rw [automation_last_append, automation_last_append,
      case_result_congr filtA f g last hg]

theorem c5_automation_last_only_witness :
    automation_update true none
        (fun c => if c = "b" then TestResult.SUCCESS else TestResult.FAILED)
        (["a"] ++ ["b"]) TestResult.FAILED
      = accumStep true (case_result none
          (fun c => if c = "b" then TestResult.SUCCESS else TestResult.FAILED) "b") ∧
    automation_update true none (fun _ => TestResult.SUCCESS)
        (["a"] ++ ["b"]) TestResult.FAILED
      = automation_update true none
          (fun c => if c = "b" then TestResult.SUCCESS else TestResult.FAILED)
          (["a"] ++ ["b"]) TestResult.FAILED :=
  c5_automation_last_only true none
    (fun c => if c = "b" then TestResult.SUCCESS else TestResult.FAILED)
    (fun _ => TestResult.SUCCESS) ["a"] "b" TestResult.FAILED (by decide)

/-- Claim C6 (confirmed): when the unit-test name filter is configured and
the test name does not contain it, the test is recorded SKIP and the
Process Runner is not invoked (the boolean component records whether a
child process was started). -/
theorem c6_filter_skip (s name : String) (r : TestResult)
    (h : pyIn s name = false) :
    unit_test_step (some s) name r = (TestResult.SKIP, false) := by
  have ht := truthy_of_not_contained s name h
  simp [unit_test_step, ht, filterStr, h]

theorem c6_filter_skip_witness :
    unit_test_step (some "x") "alpha" TestResult.SUCCESS
      = (TestResult.SKIP, false) :=
  c6_filter_skip "x" "alpha" TestResult.SUCCESS (by decide)

/-- Claim C7 (confirmed): provided the parent environment defines `PATH`
(otherwise line 166 raises `KeyError`, recorded by `child_env_ok`), the
child environment sets both dynamic-loader variables to the DUT prefix's
`lib` directory, prefixes `PATH` with the DUT prefix's `bin` directory,
and maps every other variable exactly as the parent does; the parent
mapping itself is only read (`dict(os.environ)` copies it), never
written. -/
theorem c7_child_env (parent : String → Option String) (pref p : String)
    (hp : parent "PATH" = some p) :
    child_env_ok parent = true ∧
    child_env parent pref "DYLD_LIBRARY_PATH" = some (pref ++ "/lib") ∧
    child_env parent pref "LD_LIBRARY_PATH" = some (pref ++ "/lib") ∧
    child_env parent pref "PATH" = some (pref ++ "/bin" ++ ":" ++ p) ∧
    ∀ k, k ≠ "DYLD_LIBRARY_PATH" → k ≠ "LD_LIBRARY_PATH" → k ≠ "PATH" →
      child_env parent pref k = parent k := by
  have hbase : child_env_base parent pref "PATH" = some p := by
    simp only [child_env_base, upd]
    rw [if_neg (by decide), if_neg (by decide)]
    exact hp
  refine ⟨?_, ?_, ?_, ?_, ?_⟩
  · unfold child_env_ok
    rw [hp]
    rfl
  · simp [child_env, child_env_base, upd]
  · simp [child_env, child_env_base, upd]
  · simp [child_env, upd, hbase]
  · intro k h1 h2 h3
    simp only [child_env, child_env_base, upd]
    rw [if_neg h3, if_neg h2, if_neg h1]

theorem c7_child_env_witness :
    child_env_ok (fun k => if k = "PATH" then some "/usr/bin"
      else if k = "HOME" then some "/root" else none) = true ∧
    child_env (fun k => if k = "PATH" then some "/usr/bin"
        else if k = "HOME" then some "/root" else none) "/pref" "LD_LIBRARY_PATH"
      = some ("/pref" ++ "/lib") ∧
    child_env (fun k => if k = "PATH" then some "/usr/bin"
        else if k = "HOME" then some "/root" else none) "/pref" "PATH"
      = some ("/pref" ++ "/bin" ++ ":" ++ "/usr/bin") ∧
    child_env (fun k => if k = "PATH" then some "/usr/bin"
        else if k = "HOME" then some "/root" else none) "/pref" "HOME"
      = some "/root" := by
  have h := c7_child_env (fun k => if k = "PATH" then some "/usr/bin"
    else if k = "HOME" then some "/root" else none) "/pref" "/usr/bin" (by decide)
  refine ⟨h.1, h.2.2.1, h.2.2.2.1, ?_⟩
  rw [h.2.2.2.2 "HOME" (by decide) (by decide) (by decide)]
  decide

/-- Claim C8 (confirmed): a descriptor file whose Test section contains
`Exec=/bin/true --flag "a b"` parses into the invocation
`["/bin/true", "--flag", "a b"]` — shell word splitting keeps the quoted
space inside a single argument — and the descriptor's filename stem is
the test name. -/
theorem c8_descriptor_parse :
    get_unit_tests [("foo.test", "[Test]\nExec=/bin/true --flag \"a b\"\n")]
      = some [("foo", ["/bin/true", "--flag", "a b"])] ∧
    shlexSplit "/bin/true --flag \"a b\"" = some ["/bin/true", "--flag", "a b"] ∧
    stem "foo.test" = "foo" := by
  decide

/-- Claim C9 (confirmed): the automation-case extraction applied to source
text containing
`static const SDLTest_TestCaseReference fooRef = {foo, "foo.bar-1", TEST_ENABLED};`
yields the quoted second initializer field `foo.bar-1` exactly once. -/
theorem c9_case_extraction :
    get_automation_cases
        "int x;\nstatic const SDLTest_TestCaseReference fooRef = \x7bfoo, \"foo.bar-1\", TEST_ENABLED\x7d;\n"
      = ["foo.bar-1"] := by
  decide

/-- Claim C10 counterexample: with automation filter `foo`, the case
`bar.b` is removed at discovery time (only `foo.a` survives), and —
contrary to the claim — `bar.b` does not appear in the report at all: it
is absent from the report's row set (`all_automation_cases` is built from
the already-filtered lists on line 160), so no NOT-APPLICABLE row is ever
rendered for it. -/
theorem c10_filtered_absent_cex :
    discovered_cases (some "foo") ["foo.a", "bar.b"] = ["foo.a"] ∧
    "bar.b" ∉ automation_rows (some "foo") [["foo.a", "bar.b"]] := by
  decide

/-- Claim C10 as amended (corrected): when the automation filter is
configured, every non-matching case is removed from the case list at
discovery time; consequently the per-case SKIP branch in the execution
loop is unreachable — every recorded automation result is the Process
Runner's result, and the runner never returns SKIP — and filtered-out
cases do not appear in the report at all (they are absent from the row
set rather than shown as NOT-APPLICABLE). -/
theorem c10_filter_removes_at_discovery (s : String) (f : String → TestResult)
    (k : String) (raw : List String) (rawLists : List (List String))
    (hk : pyIn s k = false) :
    k ∉ discovered_cases (some s) raw ∧
    (∀ c ∈ discovered_cases (some s) raw, case_result (some s) f c = f c) ∧
    (∀ (child : ChildProc) (tmo : Nat),
      (run_process_with_timeout child tmo).result ≠ TestResult.SKIP) ∧
    k ∉ automation_rows (some s) rawLists := by
  have ht := truthy_of_not_contained s k hk
  have hnot : ∀ raw' : List String, k ∉ discovered_cases (some s) raw' := by
    intro raw' hmem
    simp [discovered_cases, ht, List.mem_filter, filterStr, hk] at hmem
  refine ⟨hnot raw, ?_, ?_, ?_⟩
  · intro c hc
    have hcin : pyIn s c = true := by
      simp [discovered_cases, ht, List.mem_filter, filterStr] at hc
      exact hc.2
    simp [case_result, ht, filterStr, hcin]
  · intro child tmo
    unfold run_process_with_timeout
    cases poll child (pollLoop child tmo 0 (tmo + 2)) with
    | none => decide
    | some code =>
      by_cases hz : code = 0 <;> simp [hz]
  · intro hmem
    simp only [automation_rows, List.mem_flatten, List.mem_map] at hmem
    obtain ⟨l, ⟨raw', _, hraw⟩, hkl⟩ := hmem
    rw [← hraw] at hkl
    exact hnot raw' hkl

theorem c10_filter_removes_at_discovery_witness :
    "bar.b" ∉ discovered_cases (some "foo") ["foo.a", "bar.b"] ∧
    case_result (some "foo") (fun _ => TestResult.SUCCESS) "foo.a"
      = TestResult.SUCCESS ∧
    (run_process_with_timeout ⟨some 1, 0⟩ 5).result ≠ TestResult.SKIP ∧
    "bar.b" ∉ automation_rows (some "foo") [["foo.a", "bar.b"]] := by
  have h := c10_filter_removes_at_discovery "foo" (fun _ => TestResult.SUCCESS)
    "bar.b" ["foo.a", "bar.b"] [["foo.a", "bar.b"]] (by decide)
  exact ⟨h.1, h.2.1 "foo.a" (by decide), h.2.2.1 ⟨some 1, 0⟩ 5, h.2.2.2⟩
